import Mathlib

/-!
Shallow embedding of `src/lettercrap.ts` (the Lettercrap library).

The embedding models:
* the global settings store (`Config`, `configure`, `isConfigValid` and the
  validator predicates `isStringNonBlank`, `isArrayStringNonBlank`,
  `isNumberNonNegative`);
* the frame compositor `getTextContentWithImageAtSize`, including its
  cell classification (`classifyFilled`), the random seams
  (`shouldReplaceWord`, `shouldReplaceExistingText`, `randomChoice`,
  modelled on an explicit stream `rand : ℕ → ℚ` of `Math.random` draws
  consumed left to right with a counter), character replacement, reuse of
  the previous frame's text, and word injection;
* the per-surface lifecycle registry (`initElement`, `resetElement`).

Browser collaborators (canvas resampling in `drawImage`/`getImageData`,
SVG generation, image loading) are replaced by their outputs: the sampled
`ImageData` is an input of the compositor, and the image-loading pipeline
of `initElement` is an input of type `Except String InitializedInstance`.
JavaScript strings are `String`/`List Char`, JavaScript numbers used as
probabilities are `ℚ`, and `undefined` is `Option.none`; the JavaScript
coercion `'' + undefined = "undefined"` is modelled by `jsUndefined`.
-/

namespace Lettercrap

/-- The `Config` type of `src/lettercrap.ts` (lines 12‑19).  `font_weight`
is a string union type in TypeScript; at runtime it is a plain string, so
it is modelled as `String`.  `update_interval` is a JavaScript number used
only in sign comparisons, modelled as `Int`. -/
structure Config where
  content : String
  letters : String
  words : List String
  font_family : String
  font_weight : String
  update_interval : Int
deriving DecidableEq, Repr

/-- The default `config` object (lines 21‑28). -/
def config : Config :=
  { content := "LETTERCRAP"
    letters := "01"
    words := []
    font_family := "monospace"
    font_weight := "normal"
    update_interval := 150 }

/-- The `fontWeights` array (lines 30‑44). -/
def fontWeights : List String :=
  ["100", "200", "300", "400", "500", "600", "700", "800", "900",
   "lighter", "normal", "bold", "bolder"]

/-- JavaScript `String.prototype.trim`: whitespace removed from both ends
of the string. -/
def jsTrim (s : String) : String :=
  ⟨((s.data.dropWhile Char.isWhitespace).reverse.dropWhile Char.isWhitespace).reverse⟩

/-- `isStringNonBlank` (lines 359‑361): the trimmed string is non-empty. -/
def isStringNonBlank (str : String) : Bool :=
  (jsTrim str).length > 0

/-- `isArrayStringNonBlank` (lines 363‑365). -/
def isArrayStringNonBlank (arr : List String) : Bool :=
  arr.all (fun word => isStringNonBlank word)

/-- `isNumberNonNegative` (lines 367‑369). -/
def isNumberNonNegative (num : Int) : Bool :=
  num ≥ 0

/-- `isConfigValid` (lines 371‑377): content and letters non-blank, every
word non-blank, update interval non-negative.  `font_family` and
`font_weight` are not inspected. -/
def isConfigValid (c : Config) : Bool :=
  let validContent := isStringNonBlank c.content
  let validLetters := isStringNonBlank c.letters
  let validWords := isArrayStringNonBlank c.words
  let validUpdateInterval := isNumberNonNegative c.update_interval
  validContent && validLetters && validWords && validUpdateInterval

/-- A `Partial<Config>` argument of `configure`: absent fields are
`none` (JavaScript `undefined`). -/
structure PartialConfig where
  content : Option String
  letters : Option String
  words : Option (List String)
  font_family : Option String
  font_weight : Option String
  update_interval : Option Int
deriving DecidableEq, Repr

/-- The merged preview `{ ...config, ...cleanUserConfig }` of `configure`
(line 55): each present field of the update overrides the stored field,
which is also the value assigned by `config[key] = userConfig[key] ?? config[key]`
on line 58. -/
def mergeConfig (stored : Config) (userConfig : PartialConfig) : Config :=
  { content := userConfig.content.getD stored.content
    letters := userConfig.letters.getD stored.letters
    words := userConfig.words.getD stored.words
    font_family := userConfig.font_family.getD stored.font_family
    font_weight := userConfig.font_weight.getD stored.font_weight
    update_interval := userConfig.update_interval.getD stored.update_interval }

/-- `configure` (lines 53‑59), as a function from the stored configuration
and the update to the new stored configuration together with the thrown
error, if any.  The code validates the merged preview before any
assignment to the store, so on a validation failure the store is returned
unchanged, and on success every field of the store is assigned its merged
value. -/
def configure (stored : Config) (userConfig : PartialConfig) : Config × Option String :=
  let preview := mergeConfig stored userConfig
  if isConfigValid preview then (preview, none) else (stored, some "Invalid settings")

/-- The validation on line 195 of `initElement`, in positive form: the
`data-lettercrap-text` branch throws `Invalid settings` iff this returns
`false`.  Unlike `isConfigValid`, it does inspect the font family and the
font weight. -/
def initTextSettingsValid (text font_family font_weight : String) : Bool :=
  isStringNonBlank text && isStringNonBlank font_family && fontWeights.contains font_weight

/-! ## The frame compositor -/

/-- One RGBA sample of the resampled image. -/
structure RGBA where
  r : ℕ
  g : ℕ
  b : ℕ
  a : ℕ
deriving DecidableEq, Repr

/-- The `ImageData` produced by `context.getImageData` on line 325:
`width × height` cells, `data` the flat row-major RGBA byte array. -/
structure ImageData where
  width : ℕ
  height : ℕ
  data : List ℕ
deriving DecidableEq, Repr

/-- The fixed character cell width (line 311). -/
def char_width : ℕ := 6

/-- The fixed character cell height (line 312). -/
def char_height : ℕ := 10

/-- `data.data.slice(i * 4, (i + 1) * 4)` destructured into `[r, g, b, a]`
(line 332): `none` when any of the four components is `undefined`, which
makes the code throw `Array index out of bound` (lines 333‑335). -/
def pixelAt (d : List ℕ) (i : ℕ) : Option RGBA :=
  match d.drop (4 * i) with
  | r :: g :: b :: a :: _ => some ⟨r, g, b, a⟩
  | _ => none

/-- Cell classification (lines 336‑338): `black = r < 120`,
`transparent = a < 50`, the cell is filled iff `black && !transparent`. -/
def classifyFilled (px : RGBA) : Bool :=
  let black := px.r < 120
  let transparent := px.a < 50
  black && !transparent

/-- Whether the cell with index `j` of the sampled data is filled
(`pixelAt` then `classifyFilled`; `false` when the sample is missing). -/
def isFilledAt (d : List ℕ) (j : ℕ) : Bool :=
  match pixelAt d j with
  | some px => classifyFilled px
  | none => false

/-- `existingText?.replace(/\r?\n|\r/g, '')` (line 310): removing every
occurrence of CRLF, LF and CR removes exactly the `\r` and `\n`
characters. -/
def stripLineBreaks (s : String) : String :=
  ⟨s.data.filter (fun c => !(c == '\r' || c == '\n'))⟩

/-- JavaScript truthiness of the stripped `existingText` (`!existingText`
is true for `undefined` and for the empty string). -/
def hasSource (et : Option (List Char)) : Bool :=
  match et with
  | some (_ :: _) => true
  | _ => false

/-- The JavaScript string coercion of `undefined` appended by `+`:
`'a' + undefined` is `"aundefined"`. -/
def jsUndefined : List Char := "undefined".data

/-- `shouldReplaceWord` (line 313): one `Math.random()` draw, compared
with 0.05.  Returns the decision and the advanced draw counter. -/
def shouldReplaceWord (rand : ℕ → ℚ) (k : ℕ) : Bool × ℕ :=
  (decide (rand k < 1/20), k + 1)

/-- `shouldReplaceExistingText` (line 314): `!existingText || Math.random() < 0.1`.
When the stripped previous text is falsy the disjunction short-circuits and
no draw is consumed; otherwise one draw is consumed and compared with 0.1. -/
def shouldReplaceExistingText (src : Bool) (rand : ℕ → ℚ) (k : ℕ) : Bool × ℕ :=
  if src then (decide (rand k < 1/10), k + 1) else (true, k)

/-- `randomChoice` (lines 316‑318): `list[Math.floor(Math.random() * list.length)]`,
`none` when the index is out of range (JavaScript `undefined`). -/
def randomChoice {α : Type} (list : List α) (q : ℚ) : Option α :=
  list[(⌊q * (list.length : ℚ)⌋).toNat]?

/-- The mutable state of the compositor loop of
`getTextContentWithImageAtSize`: the accumulated `chars`, the run start
`start_of_filled_in_sequence` (initially `0`, line 327), the cell index
`i` and the position `k` in the stream of `Math.random()` draws. -/
structure CompState where
  chars : List Char
  start_of_filled_in_sequence : Option ℕ
  i : ℕ
  k : ℕ
deriving DecidableEq, Repr

/-- Line 340: `chars += shouldReplaceExistingText() ? randomChoice(letters.split('')) : existingText![i]`.
A missing result of `randomChoice` or an out-of-range index into the
previous text is JavaScript `undefined`, appended as the string
`"undefined"`.  (The `existingText` of the `none` branch is unreachable:
when the text is falsy, `shouldReplaceExistingText` is `true`.) -/
def emitChar (letters : String) (et : Option (List Char)) (rand : ℕ → ℚ) (st : CompState) : CompState :=
  let p := shouldReplaceExistingText (hasSource et) rand st.k
  if p.1 then
    let app := match randomChoice letters.data (rand p.2) with
      | some c => [c]
      | none => jsUndefined
    { st with chars := st.chars ++ app, k := p.2 + 1 }
  else
    let app := match et with
      | some l =>
        match l[st.i]? with
        | some c => [c]
        | none => jsUndefined
      | none => jsUndefined
    { st with chars := st.chars ++ app, k := p.2 }

/-- Lines 341‑346: word injection.  Guards in source order:
`words.length > 0`, a fresh `shouldReplaceWord()` draw, a fresh
`shouldReplaceExistingText()` evaluation, then `randomChoice(words)`; the
chosen word is written only when it is truthy and the current run
`i + 1 - start_of_filled_in_sequence` is at least as long as the word, in
which case the word replaces exactly `word.length` characters at the end
of `chars` (`chars.substring(0, chars.length - word.length) + word`). -/
def injectWord (words : List String) (et : Option (List Char)) (rand : ℕ → ℚ) (st : CompState) : CompState :=
  if words.length > 0 then
    let pw := shouldReplaceWord rand st.k
    if pw.1 then
      let pr := shouldReplaceExistingText (hasSource et) rand pw.2
      if pr.1 then
        match randomChoice words (rand pr.2) with
        | some word =>
          if word ≠ "" ∧ word.length ≤ st.i + 1 - st.start_of_filled_in_sequence.getD 0 then
            { st with chars := st.chars.take (st.chars.length - word.length) ++ word.data,
                      k := pr.2 + 1 }
          else { st with k := pr.2 + 1 }
        | none => { st with k := pr.2 + 1 }
      else { st with k := pr.2 }
    else { st with k := pw.2 }
  else st

/-- The body of the cell loop (lines 332‑351).  A filled cell first makes
the run start present (`if (start === null) start = i`, line 339), then
emits a character, then possibly injects a word, and finally advances `i`;
an empty cell emits a space and clears the run start. -/
def compCell (letters : String) (words : List String) (et : Option (List Char))
    (rand : ℕ → ℚ) (px : RGBA) (st : CompState) : CompState :=
  if classifyFilled px then
    let st0 := { st with
      start_of_filled_in_sequence := some (st.start_of_filled_in_sequence.getD st.i) }
    let st1 := emitChar letters et rand st0
    let st2 := injectWord words et rand st1
    { st2 with i := st2.i + 1 }
  else
    { st with chars := st.chars ++ [' '], start_of_filled_in_sequence := none, i := st.i + 1 }

/-- The inner `x` loop (line 331): process `n` more cells of the current
row, reading each sample at the running cell index; a missing sample
throws `Array index out of bound`. -/
def compRow (letters : String) (words : List String) (et : Option (List Char))
    (rand : ℕ → ℚ) (d : List ℕ) : ℕ → CompState → Except String CompState
  | 0, st => .ok st
  | n + 1, st =>
    match pixelAt d st.i with
    | none => .error "Array index out of bound"
    | some px => compRow letters words et rand d n (compCell letters words et rand px st)

/-- The outer `y` loop (lines 330‑355): after each row of `w` cells a line
break is appended and the run start is cleared. -/
def compRows (letters : String) (words : List String) (et : Option (List Char))
    (rand : ℕ → ℚ) (d : List ℕ) : ℕ → ℕ → CompState → Except String CompState
  | 0, _, st => .ok st
  | m + 1, w, st =>
    match compRow letters words et rand d w st with
    | .error e => .error e
    | .ok st1 =>
      compRows letters words et rand d m w
        { st1 with chars := st1.chars ++ ['\n'], start_of_filled_in_sequence := none }

/-- `getTextContentWithImageAtSize` (lines 302‑357) over the sampled
`ImageData` (the canvas resampling `drawImage`/`getImageData` that
produces it from the image and the `width/6 × height/10` cell dimensions
is a browser collaborator).  The previous text is stripped of line breaks
before the loop; the loop starts from empty `chars`, run start `0`, cell
index `0`, and the first unconsumed random draw. -/
def getTextContentWithImageAtSize (data : ImageData) (existingText : Option String)
    (words : List String) (letters : String) (rand : ℕ → ℚ) : Except String String :=
  let et := existingText.map (fun s => (stripLineBreaks s).data)
  match compRows letters words et rand data.data data.height data.width
      { chars := [], start_of_filled_in_sequence := some 0, i := 0, k := 0 } with
  | .ok st => .ok ⟨st.chars⟩
  | .error e => .error e

/-! ## The surface lifecycle registry -/

/-- `InitializedInstance` (lines 63‑76): the repeating-timer handle and
the `ResizeObserver` of an active surface; `destroy` stops the timer and
disconnects the observer.  Both handles are identified by numbers. -/
structure InitializedInstance where
  intervalId : ℕ
  observerId : ℕ
deriving DecidableEq, Repr

/-- A display surface as the lifecycle code observes it: its identity
(the `Map` key), whether it is a DOM `Node`, and the state cleared by
`resetElement` (`textContent`, with JavaScript `null` as `none`, and
`style.height`). -/
structure Element where
  id : ℕ
  isNode : Bool
  textContent : Option String
  styleHeight : String
deriving DecidableEq, Repr

/-- The `instances` registry (line 61), keyed by surface identity. -/
abbrev Registry := List (ℕ × InitializedInstance)

/-- `initElement` (lines 188‑241).  Line 189 returns at once when the
element is already registered, before any other work.  Otherwise the
attribute resolution, validation, SVG rasterization and image loading of
lines 191‑215 (browser collaborators, abstracted as the `pipeline`
argument) either fail — rejecting without registering — or produce the
`render` metadata, which `instances.set` registers under the element's
identity. -/
def initElement (instances : Registry) (e : Element)
    (pipeline : Except String InitializedInstance) : Except String Registry :=
  if (instances.lookup e.id).isSome then .ok instances
  else
    match pipeline with
    | .error err => .error err
    | .ok metadata => .ok ((e.id, metadata) :: instances)

/-- The observable outcome of a successful `resetElement`: the registry
after `instances.delete`, the cleared element, and the metadata on which
`destroy()` was called (timer stopped, observer disconnected). -/
structure ResetOutcome where
  instances : Registry
  element : Element
  destroyed : List InitializedInstance
deriving DecidableEq, Repr

/-- `resetElement` (lines 105‑122): with a registered `Node`, destroy the
metadata, delete the registry entry and clear `textContent` (to `null`)
and `style.height` (to the empty string); with no registry entry, reject
with `Element not initialized`; with an entry on a non-`Node` input,
reject with `Input is not a Node instance`. -/
def resetElement (instances : Registry) (e : Element) : Except String ResetOutcome :=
  let metadata := instances.lookup e.id
  if e.isNode && metadata.isSome then
    .ok { instances := instances.filter (fun p => p.1 != e.id)
          element := { e with textContent := none, styleHeight := "" }
          destroyed := metadata.toList }
  else if metadata.isNone then .error "Element not initialized"
  else .error "Input is not a Node instance"

/-! ## Spec-side frame renderings

The two deterministic scenarios of the spec (first frame: every filled
cell is freshly drawn from the palette; reuse frame: every filled cell
repeats the previous frame) are described by a simple positional
rendering, to be compared with the loop above. -/

/-- The number of filled cells among the first `j` cells of the sampled
data.  In the deterministic scenarios below each filled cell consumes a
fixed number of random draws and empty cells consume none, so this also
counts draws. -/
def filledBefore (d : List ℕ) (j : ℕ) : ℕ :=
  ((List.range j).filter (fun t => isFilledAt d t)).length

/-- The character at flat output position `p` of a `w`-column rendering:
positions `y * (w + 1) + w` hold the line break closing row `y`, and
position `y * (w + 1) + x` (`x < w`) holds the character of cell
`y * w + x`. -/
def posChar (w : ℕ) (cell : ℕ → Char) (p : ℕ) : Char :=
  if p % (w + 1) = w then '\n' else cell ((p / (w + 1)) * w + p % (w + 1))

/-- Row-major rendering of a `w × h` grid, one character per cell, each
row closed by a line break. -/
def gridRender (w h : ℕ) (cell : ℕ → Char) : List Char :=
  (List.range (h * (w + 1))).map (posChar w cell)

/-- Spec-side cell content of a first frame (no previous text): a filled
cell holds the palette character chosen by the draw consumed at it, an
empty cell a space. -/
def firstFrameCell (d : List ℕ) (letters : String) (rand : ℕ → ℚ) (j : ℕ) : Char :=
  if isFilledAt d j then (randomChoice letters.data (rand (filledBefore d j))).getD ' ' else ' '

/-- Spec-side cell content of a pure reuse frame: a filled cell repeats
the character at the same absolute cell index of the stripped previous
text, an empty cell a space. -/
def reuseCell (d : List ℕ) (prev : List Char) (j : ℕ) : Char :=
  if isFilledAt d j then prev.getD j ' ' else ' '

/-! ## Deterministic random seams used by concrete scenarios -/

/-- A `Math.random` stream whose first draw is `1/2` and whose later draws
are `0`. -/
def randFirstHalf : ℕ → ℚ := fun n => if n = 0 then 1/2 else 0

/-- The constant `Math.random` stream `1/2`: with it, neither the 10%
character replacement nor the 5% word injection ever fires. -/
def randHalf : ℕ → ℚ := fun _ => 1/2

/-- The constant `Math.random` stream `0`: with it, every probabilistic
branch fires and every `randomChoice` picks the first element. -/
def randZero : ℕ → ℚ := fun _ => 0

/-! ## Theorems: cell classification -/

/-- C4: cell classification is a pure function of the sampled RGBA
values: a cell is filled iff its red channel is below 120 and its alpha
is at least 50; hence a pixel with red 255 is never filled, a pixel with
red 0 and alpha 255 is always filled, and a pixel with alpha 0 is never
filled regardless of red. -/
theorem classifyFilled_rgba (r g b a : ℕ) :
    (classifyFilled ⟨r, g, b, a⟩ = true ↔ r < 120 ∧ 50 ≤ a) ∧
    classifyFilled ⟨255, g, b, a⟩ = false ∧
    classifyFilled ⟨0, g, b, 255⟩ = true ∧
    classifyFilled ⟨r, g, b, 0⟩ = false := by
  refine ⟨?_, ?_, ?_, ?_⟩ <;> simp [classifyFilled]

/-! ## Theorems: the settings store -/

/-- C1: `configure` merges the present fields of the update over the
stored configuration and validates the merged result before any
assignment: if the merge is invalid it throws `Invalid settings` and
returns the store unchanged (atomic-or-nothing), and if it is valid it
assigns every provided field.  In particular an update with blank
`content` always fails and leaves `content` at its prior value. -/
theorem configure_merge_validate (stored : Config) (userConfig : PartialConfig) :
    (isConfigValid (mergeConfig stored userConfig) = false →
      configure stored userConfig = (stored, some "Invalid settings")) ∧
    (isConfigValid (mergeConfig stored userConfig) = true →
      configure stored userConfig = (mergeConfig stored userConfig, none)) ∧
    configure stored ⟨some "", none, none, none, none, none⟩ =
      (stored, some "Invalid settings") ∧
    (configure stored ⟨some "", none, none, none, none, none⟩).1.content = stored.content := by
  have hblank : isConfigValid (mergeConfig stored ⟨some "", none, none, none, none, none⟩) = false := by
    simp [isConfigValid, mergeConfig, isStringNonBlank, jsTrim]
  refine ⟨fun h => ?_, fun h => ?_, ?_, ?_⟩
  · simp [configure, h]
  · simp [configure, h]
  · simp [configure, hblank]
  · simp [configure, hblank]

/-- Witness for `configure_merge_validate`: a negative update interval
makes the merge invalid, so `configure` throws and the default store is
unchanged. -/
theorem configure_merge_validate_witness :
    configure config ⟨none, none, none, none, none, some (-1)⟩ =
      (config, some "Invalid settings") :=
  (configure_merge_validate config ⟨none, none, none, none, none, some (-1)⟩).1 (by decide)

/-- C10: `configure` throws `Invalid settings` exactly when the merged
configuration has blank content, blank letters, some blank word, or a
negative update interval; the merged `font_family` and `font_weight` are
never inspected by this validation, so any strings — a blank font family
or a font weight outside the thirteen CSS tokens — are accepted and
stored, even though the per-element `data-lettercrap-text` validation of
`initElement` does reject those two values. -/
theorem configure_validation_ignores_font :
    (∀ stored userConfig, (configure stored userConfig).2 = some "Invalid settings" ↔
      isConfigValid (mergeConfig stored userConfig) = false) ∧
    (∀ c : Config, isConfigValid c = false ↔
      (isStringNonBlank c.content = false ∨ isStringNonBlank c.letters = false ∨
        (∃ w ∈ c.words, isStringNonBlank w = false) ∨ c.update_interval < 0)) ∧
    (∀ c : Config, ∀ ff fw : String,
      isConfigValid { c with font_family := ff, font_weight := fw } = isConfigValid c) ∧
    configure config ⟨none, none, none, some "", some "zzz", none⟩ =
      ({ config with font_family := "", font_weight := "zzz" }, none) ∧
    initTextSettingsValid config.content "" config.font_weight = false ∧
    initTextSettingsValid config.content config.font_family "zzz" = false := by
  refine ⟨fun stored userConfig => ?_, fun c => ?_, fun c ff fw => rfl, by decide, by decide, by decide⟩
  · by_cases h : isConfigValid (mergeConfig stored userConfig) <;> simp [configure, h]
  · simp only [isConfigValid, isArrayStringNonBlank, isNumberNonNegative,
      Bool.and_eq_false_iff, List.all_eq_false, decide_eq_false_iff_not, not_le,
      Bool.not_eq_true]
    aesop

/-! ## Theorems: word injection -/

/-- C2 as stated is false on the code: with previous text `"a"`, word
list `["X"]` and the stream `randFirstHalf`, the first draw is `1/2`, so
the 10% replacement does not fire and the only filled cell reuses `'a'`
from the previous frame; yet the word branch re-evaluates
`shouldReplaceExistingText()` with fresh draws (`0 < 1/20`, `0 < 1/10`)
and the output is `"X\n"`: a word is injected at a cell whose character
was reused, not replaced. -/
theorem word_injected_at_reused_cell :
    getTextContentWithImageAtSize ⟨1, 1, [0, 0, 0, 255]⟩ (some "a") ["X"] "01" randFirstHalf
      = .ok "X\n" ∧
    ¬ randFirstHalf 0 < 1/10 ∧ (0:ℚ) ≤ randFirstHalf 0 ∧ randFirstHalf 0 < 1 := by
  refine ⟨?_, by norm_num [randFirstHalf], by norm_num [randFirstHalf],
    by norm_num [randFirstHalf]⟩
  have s0 : shouldReplaceExistingText true randFirstHalf 0 = (false, 1) := by
    simp only [shouldReplaceExistingText, if_true]
    norm_num [randFirstHalf]
  have s1 : shouldReplaceWord randFirstHalf 1 = (true, 2) := by
    simp only [shouldReplaceWord]
    norm_num [randFirstHalf]
  have s2 : shouldReplaceExistingText true randFirstHalf 2 = (true, 3) := by
    simp only [shouldReplaceExistingText, if_true]
    norm_num [randFirstHalf]
  have r1 : randomChoice ["X"] (randFirstHalf 3) = some "X" := by
    norm_num [randomChoice, randFirstHalf]
  simp +decide [getTextContentWithImageAtSize, compRows, compRow, compCell, emitChar,
    injectWord, hasSource, pixelAt, classifyFilled, stripLineBreaks, jsUndefined,
    s0, s1, s2, r1, String.ext_iff]

/-- C2 amended: word injection at a filled cell requires a configured
word, the fresh 5% draw, and a second, independent evaluation of
`shouldReplaceExistingText` — automatically true when there is no
previous text, else a fresh 10% draw — rather than the replacement having
occurred at that cell. -/
theorem injectWord_fresh_draws (words : List String) (et : Option (List Char))
    (rand : ℕ → ℚ) (st : CompState)
    (hch : (injectWord words et rand st).chars ≠ st.chars) :
    words ≠ [] ∧ rand st.k < 1/20 ∧ (hasSource et = true → rand (st.k + 1) < 1/10) := by
  by_cases hw : words.length > 0
  case neg =>
    exact absurd (by simp [-one_div, injectWord, hw]) hch
  case pos =>
    have hne : words ≠ [] := by
      cases words with
      | nil => simp at hw
      | cons a l => simp
    by_cases h5 : rand st.k < 1/20
    case neg =>
      exact absurd (by simp [-one_div, injectWord, hw, shouldReplaceWord, h5]) hch
    case pos =>
      refine ⟨hne, h5, fun hsrc => ?_⟩
      by_cases h10 : rand (st.k + 1) < 1/10
      · exact h10
      · exact absurd
          (by simp [-one_div, injectWord, hw, shouldReplaceWord, h5, shouldReplaceExistingText,
            hsrc, h10]) hch

/-- Witness for `injectWord_fresh_draws`: with no previous text, two
emitted characters and word `"XY"`, the zero stream fires the word branch
and rewrites the tail of the row. -/
theorem injectWord_fresh_draws_witness :
    (["XY"] : List String) ≠ [] ∧ randZero 0 < 1/20 ∧
      (hasSource none = true → randZero (0 + 1) < 1/10) := by
  apply injectWord_fresh_draws ["XY"] none randZero ⟨['0', '0'], some 0, 1, 0⟩
  have s1 : shouldReplaceWord randZero 0 = (true, 1) := by
    simp only [shouldReplaceWord]
    norm_num [randZero]
  have r1 : randomChoice ["XY"] (randZero 1) = some "XY" := by
    norm_num [randomChoice, randZero]
  simp +decide [injectWord, shouldReplaceExistingText, hasSource, s1, r1]

/-- C7: when the word branch rewrites the emitted row, the chosen word is
one of the configured words, is non-empty, is no longer than the current
run `i + 1 - start_of_filled_in_sequence`, and replaces exactly
`word.length` characters at the end of the row emitted so far, leaving
the total length unchanged; a run shorter than every word is never
overwritten. -/
theorem injectWord_run_guard (words : List String) (et : Option (List Char))
    (rand : ℕ → ℚ) (st : CompState) (s : ℕ)
    (hs : st.start_of_filled_in_sequence = some s)
    (hrun : st.i + 1 - s ≤ st.chars.length)
    (hch : (injectWord words et rand st).chars ≠ st.chars) :
    ∃ w ∈ words, w ≠ "" ∧ w.length ≤ st.i + 1 - s ∧
      (injectWord words et rand st).chars =
        st.chars.take (st.chars.length - w.length) ++ w.data ∧
      ((injectWord words et rand st).chars).length = st.chars.length := by
  by_cases hw : words.length > 0
  case neg => exact absurd (by simp [-one_div, injectWord, hw]) hch
  case pos =>
  by_cases h5 : rand st.k < 1/20
  case neg => exact absurd (by simp [-one_div, injectWord, hw, shouldReplaceWord, h5]) hch
  case pos =>
  rcases hpr : (shouldReplaceExistingText (hasSource et) rand (st.k + 1)).1 with _ | _
  case false =>
    exact absurd (by simp [-one_div, injectWord, hw, shouldReplaceWord, h5, hpr]) hch
  case true =>
  rcases hrc : randomChoice words
      (rand (shouldReplaceExistingText (hasSource et) rand (st.k + 1)).2) with _ | w
  case none =>
    exact absurd (by simp [-one_div, injectWord, hw, shouldReplaceWord, h5, hpr, hrc]) hch
  case some =>
  by_cases hg : w ≠ "" ∧ w.length ≤ st.i + 1 - st.start_of_filled_in_sequence.getD 0
  case neg =>
    exact absurd (by simp [-one_div, injectWord, hw, shouldReplaceWord, h5, hpr, hrc, hg]) hch
  case pos =>
  have hmem : w ∈ words := by
    have := hrc
    unfold randomChoice at this
    exact List.getElem?_mem this
  have hres : (injectWord words et rand st).chars =
      st.chars.take (st.chars.length - w.length) ++ w.data := by
    simp [-one_div, injectWord, hw, shouldReplaceWord, h5, hpr, hrc, hg]
  have hgs : w.length ≤ st.i + 1 - s := by
    have := hg.2
    rwa [hs, Option.getD_some] at this
  have hwd : w.data.length = w.length := rfl
  have hwlen : w.length ≤ st.chars.length := le_trans hgs hrun
  refine ⟨w, hmem, hg.1, hgs, hres, ?_⟩
  rw [hres]
  simp only [List.length_append, List.length_take, hwd]
  omega

/-- Witness for `injectWord_run_guard`: a run of length 2 inside a
three-character row is rewritten by the two-character word `"AB"`. -/
theorem injectWord_run_guard_witness :
    ∃ w ∈ (["AB"] : List String), w ≠ "" ∧ w.length ≤ 2 + 1 - 1 ∧
      (injectWord ["AB"] none randZero ⟨['x', 'y', 'z'], some 1, 2, 0⟩).chars =
        ['x', 'y', 'z'].take (['x', 'y', 'z'].length - w.length) ++ w.data ∧
      ((injectWord ["AB"] none randZero ⟨['x', 'y', 'z'], some 1, 2, 0⟩).chars).length =
        (['x', 'y', 'z'] : List Char).length := by
  apply injectWord_run_guard ["AB"] none randZero ⟨['x', 'y', 'z'], some 1, 2, 0⟩ 1 rfl
    (by decide)
  have s1 : shouldReplaceWord randZero 0 = (true, 1) := by
    simp only [shouldReplaceWord]
    norm_num [randZero]
  have r1 : randomChoice ["AB"] (randZero 1) = some "AB" := by
    norm_num [randomChoice, randZero]
  simp +decide [injectWord, shouldReplaceExistingText, hasSource, s1, r1]

/-! ## Theorems: out-of-range reuse -/

/-- C3 names a code bug: previous text `"a"` covers only cell 0 of a 1×2
grid.  At cell 1 the 10% replacement draw does not fire (`1/2 ≥ 1/10`),
the code evaluates `existingText![1]`, which is JavaScript `undefined`,
and `chars += undefined` appends the literal string `"undefined"`: the
output is `"aundefined\n"` instead of a palette character at that cell. -/
theorem out_of_range_reuse_appends_undefined :
    getTextContentWithImageAtSize ⟨2, 1, [0, 0, 0, 255, 0, 0, 0, 255]⟩ (some "a") [] "01"
      randHalf = .ok "aundefined\n" ∧ (∀ k, ¬ randHalf k < 1/10) := by
  refine ⟨?_, by intro k; norm_num [randHalf]⟩
  have s0 : ∀ k, shouldReplaceExistingText true randHalf k = (false, k + 1) := by
    intro k
    simp only [shouldReplaceExistingText, if_true]
    norm_num [randHalf]
  simp +decide [getTextContentWithImageAtSize, compRows, compRow, compCell, emitChar,
    injectWord, hasSource, pixelAt, classifyFilled, stripLineBreaks, jsUndefined, s0,
    String.ext_iff]

/-! ## Theorems: the surface lifecycle -/

/-- Deleting a key from the registry removes every entry for it. -/
theorem lookup_filter_ne_self (l : Registry) (k : ℕ) :
    (l.filter (fun p => p.1 != k)).lookup k = none := by
  rw [List.lookup_eq_none_iff]
  intro p hp
  have hpk := (List.mem_filter.mp hp).2
  rw [bne_iff_ne] at hpk ⊢
  exact fun hk => hpk (by rw [hk])

/-- C8: `initElement` is idempotent: on an element already present in the
registry it returns at once with no error, no new timer or observer and
no new registry entry (the registry is returned unchanged); and every
successful `initElement` preserves the invariant that a surface identity
appears in the registry at most once. -/
theorem initElement_idempotent (instances : Registry) (e : Element)
    (pipeline : Except String InitializedInstance) :
    ((instances.lookup e.id).isSome = true → initElement instances e pipeline = .ok instances) ∧
    (∀ r, (instances.map Prod.fst).Nodup → initElement instances e pipeline = .ok r →
      (r.map Prod.fst).Nodup) := by
  constructor
  · intro h
    simp [initElement, h]
  · intro r hnd hr
    by_cases h : (instances.lookup e.id).isSome
    · simp [initElement, h] at hr
      exact hr ▸ hnd
    · rcases pipeline with err | metadata
      · simp [initElement, h] at hr
      · simp [initElement, h] at hr
        have h0 : instances.lookup e.id = none := by
          cases hopt : instances.lookup e.id with
          | none => rfl
          | some m => rw [hopt] at h; simp at h
        have hnotin : e.id ∉ instances.map Prod.fst := by
          rw [List.lookup_eq_none_iff] at h0
          intro hmem
          rcases List.mem_map.mp hmem with ⟨p, hp, hpe⟩
          have hb := h0 p hp
          rw [bne_iff_ne] at hb
          exact hb hpe.symm
        rw [← hr, List.map_cons]
        exact List.nodup_cons.mpr ⟨hnotin, hnd⟩

/-- Witness for `initElement_idempotent`: re-activating the registered
surface `5` returns the registry unchanged. -/
theorem initElement_idempotent_witness :
    initElement [(5, ⟨1, 2⟩)] ⟨5, true, none, ""⟩ (.ok ⟨3, 4⟩) = .ok [(5, ⟨1, 2⟩)] :=
  (initElement_idempotent [(5, ⟨1, 2⟩)] ⟨5, true, none, ""⟩ (.ok ⟨3, 4⟩)).1 (by decide)

/-- C9: `resetElement` on an element with no registry entry rejects with
`Element not initialized` and changes nothing; on a registered element it
destroys exactly its metadata (stopping the timer and disconnecting the
observer), removes the registry entry, clears the element's text content
and forced height, and afterwards a fresh `initElement` succeeds and
registers the element as if fresh. -/
theorem resetElement_lifecycle (instances : Registry) (e : Element) :
    (instances.lookup e.id = none →
      resetElement instances e = .error "Element not initialized") ∧
    (∀ metadata, e.isNode = true → instances.lookup e.id = some metadata →
      ∃ out, resetElement instances e = .ok out ∧
        out.instances.lookup e.id = none ∧
        out.element.textContent = none ∧
        out.element.styleHeight = "" ∧
        out.destroyed = [metadata] ∧
        ∀ metadata2, initElement out.instances out.element (.ok metadata2) =
          .ok ((e.id, metadata2) :: out.instances)) := by
  constructor
  · intro h
    simp [resetElement, h]
  · intro metadata hnode h
    refine ⟨⟨instances.filter (fun p => p.1 != e.id),
      { e with textContent := none, styleHeight := "" }, [metadata]⟩, ?_,
      lookup_filter_ne_self instances e.id, rfl, rfl, rfl, fun metadata2 => ?_⟩
    · simp [resetElement, hnode, h]
    · simp [initElement, lookup_filter_ne_self]

/-- Witness for `resetElement_lifecycle`: resetting the registered
surface `5` destroys its metadata, clears it, and allows a fresh
re-activation. -/
theorem resetElement_lifecycle_witness :
    ∃ out, resetElement [(5, ⟨1, 2⟩)] ⟨5, true, some "t", "50px"⟩ = .ok out ∧
      out.instances.lookup ((⟨5, true, some "t", "50px"⟩ : Element)).id = none ∧
      out.element.textContent = none ∧
      out.element.styleHeight = "" ∧
      out.destroyed = [⟨1, 2⟩] ∧
      ∀ metadata2, initElement out.instances out.element (.ok metadata2) =
        .ok ((((⟨5, true, some "t", "50px"⟩ : Element)).id, metadata2) :: out.instances) :=
  (resetElement_lifecycle [(5, ⟨1, 2⟩)] ⟨5, true, some "t", "50px"⟩).2 ⟨1, 2⟩ rfl (by decide)

/-! ## The deterministic compositor scenarios -/

/-- With a draw in `[0,1)` and a non-empty list, `randomChoice` returns
an element of the list. -/
theorem randomChoice_mem {α : Type} (list : List α) (q : ℚ)
    (h0 : 0 ≤ q) (h1 : q < 1) (hne : list ≠ []) :
    ∃ c, randomChoice list q = some c ∧ c ∈ list := by
  have hlen : 0 < list.length := List.length_pos.mpr hne
  have hcast : (0:ℚ) < (list.length : ℚ) := by exact_mod_cast hlen
  have hub : q * (list.length : ℚ) < (list.length : ℚ) := by
    calc q * (list.length : ℚ) < 1 * (list.length : ℚ) := mul_lt_mul_of_pos_right h1 hcast
      _ = (list.length : ℚ) := one_mul _
  have hlb : (0:ℚ) ≤ q * (list.length : ℚ) := mul_nonneg h0 (le_of_lt hcast)
  have hfl0 : 0 ≤ ⌊q * (list.length : ℚ)⌋ := Int.floor_nonneg.mpr hlb
  have hidx : (⌊q * (list.length : ℚ)⌋).toNat < list.length := by
    rw [Int.toNat_lt hfl0, Int.floor_lt]
    exact_mod_cast hub
  exact ⟨list[(⌊q * (list.length : ℚ)⌋).toNat], List.getElem?_eq_getElem hidx,
    List.getElem_mem hidx⟩

theorem filledBefore_zero (d : List ℕ) : filledBefore d 0 = 0 := rfl

theorem filledBefore_succ (d : List ℕ) (j : ℕ) :
    filledBefore d (j + 1) = filledBefore d j + (if isFilledAt d j then 1 else 0) := by
  unfold filledBefore
  rw [List.range_succ, List.filter_append, List.length_append]
  cases h : isFilledAt d j <;> simp [h]

theorem posChar_cell (w : ℕ) (cell : ℕ → Char) (y x : ℕ) (hx : x < w) :
    posChar w cell (y * (w + 1) + x) = cell (y * w + x) := by
  have h1 : y * (w + 1) + x = (w + 1) * y + x := by ring
  have hmod : ((w + 1) * y + x) % (w + 1) = x := by
    rw [Nat.mul_add_mod]
    exact Nat.mod_eq_of_lt (Nat.lt_succ_of_lt hx)
  have hdiv : ((w + 1) * y + x) / (w + 1) = y := by
    rw [Nat.mul_add_div (Nat.succ_pos w), Nat.div_eq_of_lt (Nat.lt_succ_of_lt hx),
      Nat.add_zero]
  unfold posChar
  rw [h1, hmod, hdiv, if_neg (Nat.ne_of_lt hx)]

theorem posChar_newline (w : ℕ) (cell : ℕ → Char) (y : ℕ) :
    posChar w cell (y * (w + 1) + w) = '\n' := by
  have h1 : y * (w + 1) + w = (w + 1) * y + w := by ring
  have hmod : ((w + 1) * y + w) % (w + 1) = w := by
    rw [Nat.mul_add_mod]
    exact Nat.mod_eq_of_lt (Nat.lt_succ_self w)
  unfold posChar
  rw [h1, hmod, if_pos rfl]

/-- A sample exists at every cell index covered by the byte array. -/
theorem pixelAt_isSome (d : List ℕ) (j : ℕ) (h : 4 * j + 4 ≤ d.length) :
    ∃ px, pixelAt d j = some px := by
  have hlen : 4 ≤ (d.drop (4 * j)).length := by
    rw [List.length_drop]
    omega
  rcases hd : d.drop (4 * j) with _ | ⟨r, _ | ⟨g, _ | ⟨b, _ | ⟨a, rest⟩⟩⟩⟩ <;>
    rw [hd] at hlen <;> simp at hlen
  exact ⟨⟨r, g, b, a⟩, by unfold pixelAt; rw [hd]⟩

/-- The cell loop of one row: when every cell's `compCell` step appends
exactly one rendered character (hypothesis `hcell`, with `dk` the
draw-counter schedule), processing the remaining `n` cells of row `y`
extends the accumulated characters to the full row prefix. -/
theorem compRow_render (letters : String) (words : List String) (et : Option (List Char))
    (rand : ℕ → ℚ) (d : List ℕ) (w h : ℕ) (cell : ℕ → Char) (dk : ℕ → ℕ)
    (hpx : ∀ j, j < h * w → ∃ px, pixelAt d j = some px)
    (hcell : ∀ j px st, j < h * w → pixelAt d j = some px → st.i = j → st.k = dk j →
      (compCell letters words et rand px st).chars = st.chars ++ [cell j] ∧
      (compCell letters words et rand px st).i = j + 1 ∧
      (compCell letters words et rand px st).k = dk (j + 1)) :
    ∀ n x y st, x + n = w → y < h → st.i = y * w + x → st.k = dk (y * w + x) →
      st.chars = (List.range (y * (w + 1) + x)).map (posChar w cell) →
      ∃ st2, compRow letters words et rand d n st = .ok st2 ∧
        st2.chars = (List.range (y * (w + 1) + w)).map (posChar w cell) ∧
        st2.i = y * w + w ∧ st2.k = dk (y * w + w) := by
  intro n
  induction n with
  | zero =>
    intro x y st hxw hy hi hk hchars
    obtain rfl : x = w := by omega
    exact ⟨st, rfl, hchars, hi, hk⟩
  | succ n ih =>
    intro x y st hxw hy hi hk hchars
    have hxlt : x < w := by omega
    have hjlt : y * w + x < h * w := by
      calc y * w + x < y * w + w := by omega
        _ = (y + 1) * w := by ring
        _ ≤ h * w := Nat.mul_le_mul_right w hy
    obtain ⟨px, hpxj⟩ := hpx (y * w + x) hjlt
    obtain ⟨hc1, hc2, hc3⟩ := hcell (y * w + x) px st hjlt hpxj hi hk
    have hpxi : pixelAt d st.i = some px := by
      rw [hi]
      exact hpxj
    have hstep : compRow letters words et rand d (n + 1) st =
        compRow letters words et rand d n (compCell letters words et rand px st) := by
      simp only [compRow, hpxi]
    rw [hstep]
    refine ih (x + 1) y (compCell letters words et rand px st) (by omega) hy ?_ ?_ ?_
    · omega
    · rw [hc3]
      congr 1
    · rw [hc1, hchars]
      have hq : y * (w + 1) + (x + 1) = (y * (w + 1) + x) + 1 := by omega
      rw [hq, List.range_succ, List.map_append, List.map_cons, List.map_nil,
        posChar_cell w cell y x hxlt]

/-- The row loop: under the same per-cell hypothesis, processing the
remaining `m` rows produces exactly the rendered grid. -/
theorem compRows_render (letters : String) (words : List String) (et : Option (List Char))
    (rand : ℕ → ℚ) (d : List ℕ) (w h : ℕ) (cell : ℕ → Char) (dk : ℕ → ℕ)
    (hpx : ∀ j, j < h * w → ∃ px, pixelAt d j = some px)
    (hcell : ∀ j px st, j < h * w → pixelAt d j = some px → st.i = j → st.k = dk j →
      (compCell letters words et rand px st).chars = st.chars ++ [cell j] ∧
      (compCell letters words et rand px st).i = j + 1 ∧
      (compCell letters words et rand px st).k = dk (j + 1)) :
    ∀ m y st, y + m = h → st.i = y * w → st.k = dk (y * w) →
      st.chars = (List.range (y * (w + 1))).map (posChar w cell) →
      ∃ st2, compRows letters words et rand d m w st = .ok st2 ∧
        st2.chars = (List.range (h * (w + 1))).map (posChar w cell) := by
  intro m
  induction m with
  | zero =>
    intro y st hym hi hk hchars
    obtain rfl : y = h := by omega
    exact ⟨st, rfl, hchars⟩
  | succ m ih =>
    intro y st hym hi hk hchars
    have hy : y < h := by omega
    obtain ⟨st1, hrow, hch1, hi1, hk1⟩ :=
      compRow_render letters words et rand d w h cell dk hpx hcell w 0 y st
        (by omega) hy (by omega) (by rw [hk]; congr 1)
        (by rw [hchars]; congr 2)
    have hstep : compRows letters words et rand d (m + 1) w st =
        compRows letters words et rand d m w
          { st1 with chars := st1.chars ++ ['\n'], start_of_filled_in_sequence := none } := by
      simp only [compRows, hrow]
    rw [hstep]
    refine ih (y + 1) _ (by omega) ?_ ?_ ?_
    · show st1.i = (y + 1) * w
      rw [hi1]
      ring
    · show st1.k = dk ((y + 1) * w)
      rw [hk1]
      congr 1
      ring
    · show st1.chars ++ ['\n'] = (List.range ((y + 1) * (w + 1))).map (posChar w cell)
      rw [hch1]
      have hq : (y + 1) * (w + 1) = (y * (w + 1) + w) + 1 := by ring
      rw [hq, List.range_succ, List.map_append, List.map_cons, List.map_nil,
        posChar_newline]

/-- The compositor as a whole: under the per-cell hypothesis, the
produced text is exactly the positional grid rendering. -/
theorem getText_render (data : ImageData) (existingText : Option String)
    (words : List String) (letters : String) (rand : ℕ → ℚ)
    (cell : ℕ → Char) (dk : ℕ → ℕ) (hdk0 : dk 0 = 0)
    (hpx : ∀ j, j < data.height * data.width → ∃ px, pixelAt data.data j = some px)
    (hcell : ∀ j px st, j < data.height * data.width → pixelAt data.data j = some px →
      st.i = j → st.k = dk j →
      (compCell letters words (existingText.map (fun s => (stripLineBreaks s).data))
        rand px st).chars = st.chars ++ [cell j] ∧
      (compCell letters words (existingText.map (fun s => (stripLineBreaks s).data))
        rand px st).i = j + 1 ∧
      (compCell letters words (existingText.map (fun s => (stripLineBreaks s).data))
        rand px st).k = dk (j + 1)) :
    ∃ out : String, getTextContentWithImageAtSize data existingText words letters rand
        = .ok out ∧
      out.data = gridRender data.width data.height cell := by
  obtain ⟨st2, hrows, hch⟩ :=
    compRows_render letters words (existingText.map (fun s => (stripLineBreaks s).data))
      rand data.data data.width data.height cell dk hpx hcell data.height 0
      ⟨[], some 0, 0, 0⟩
      (by omega) (by simp) (by simp [hdk0]) (by simp)
  refine ⟨⟨st2.chars⟩, ?_, ?_⟩
  · simp only [getTextContentWithImageAtSize]
    rw [hrows]
  · rw [hch]
    rfl

/-- First frame (no previous text, no words): each filled cell draws one
palette character with one draw, each empty cell emits a space with no
draw. -/
theorem compCell_firstFrame (d : List ℕ) (letters : String) (rand : ℕ → ℚ)
    (hq : ∀ k, 0 ≤ rand k ∧ rand k < 1) (hl : letters.data ≠ [])
    (j : ℕ) (px : RGBA) (st : CompState) (hpx : pixelAt d j = some px)
    (hi : st.i = j) (hk : st.k = filledBefore d j) :
    (compCell letters [] none rand px st).chars
      = st.chars ++ [firstFrameCell d letters rand j] ∧
    (compCell letters [] none rand px st).i = j + 1 ∧
    (compCell letters [] none rand px st).k = filledBefore d (j + 1) := by
  have hfill : isFilledAt d j = classifyFilled px := by
    unfold isFilledAt
    rw [hpx]
  cases hcl : classifyFilled px with
  | false =>
    have hnf : isFilledAt d j = false := by rw [hfill, hcl]
    refine ⟨?_, ?_, ?_⟩ <;>
      simp [compCell, hcl, firstFrameCell, hnf, filledBefore_succ, hi, hk]
  | true =>
    have hnf : isFilledAt d j = true := by rw [hfill, hcl]
    obtain ⟨c, hc, hcm⟩ := randomChoice_mem letters.data (rand (filledBefore d j))
      (hq _).1 (hq _).2 hl
    refine ⟨?_, ?_, ?_⟩ <;>
      simp [compCell, emitChar, injectWord, hasSource, shouldReplaceExistingText,
        hcl, hnf, hk, hc, firstFrameCell, filledBefore_succ, hi]

/-- Reuse frame (previous text covering the cell, replacement and word
draws never firing): each filled cell repeats the previous frame's
character at the same absolute cell index, consuming one draw for the
replacement test and, when words are configured, one for the word
test. -/
theorem compCell_reuse (d : List ℕ) (letters : String) (words : List String)
    (prev : List Char) (rand : ℕ → ℚ) (hq : ∀ k, 1/10 ≤ rand k)
    (j : ℕ) (px : RGBA) (st : CompState) (hpx : pixelAt d j = some px)
    (hj : j < prev.length) (hi : st.i = j)
    (hk : st.k = (if words = [] then 1 else 2) * filledBefore d j) :
    (compCell letters words (some prev) rand px st).chars
      = st.chars ++ [reuseCell d prev j] ∧
    (compCell letters words (some prev) rand px st).i = j + 1 ∧
    (compCell letters words (some prev) rand px st).k
      = (if words = [] then 1 else 2) * filledBefore d (j + 1) := by
  have hfill : isFilledAt d j = classifyFilled px := by
    unfold isFilledAt
    rw [hpx]
  have hsrc : hasSource (some prev) = true := by
    cases prev with
    | nil => simp at hj
    | cons a l => rfl
  have h01 : ∀ k2, ¬ rand k2 < 1/10 := fun k2 => not_lt.mpr (hq k2)
  have h05 : ∀ k2, ¬ rand k2 < 1/20 :=
    fun k2 => not_lt.mpr (le_trans (by norm_num) (hq k2))
  have hget : prev[j]? = some prev[j] := List.getElem?_eq_getElem hj
  have hgd : prev.getD j ' ' = prev[j] := by
    rw [List.getD_eq_getElem?_getD, hget]
    rfl
  cases hcl : classifyFilled px with
  | false =>
    have hnf : isFilledAt d j = false := by rw [hfill, hcl]
    refine ⟨?_, ?_, ?_⟩ <;>
      simp [compCell, hcl, reuseCell, hnf, filledBefore_succ, hi, hk]
  | true =>
    have hnf : isFilledAt d j = true := by rw [hfill, hcl]
    by_cases hw : words = []
    · subst hw
      refine ⟨?_, ?_, ?_⟩ <;>
        simp [-one_div, compCell, emitChar, injectWord, hsrc,
          shouldReplaceExistingText, hcl, hnf, h01, hi, hget, hgd, reuseCell,
          filledBefore_succ, hk]
    · have hwl : words.length > 0 := List.length_pos.mpr hw
      refine ⟨?_, ?_, ?_⟩
      · simp [-one_div, compCell, emitChar, injectWord, hsrc,
          shouldReplaceExistingText, shouldReplaceWord, hcl, hnf, h01, h05, hwl,
          hi, hget, hgd, reuseCell]
      · simp [-one_div, compCell, emitChar, injectWord, hsrc,
          shouldReplaceExistingText, shouldReplaceWord, hcl, hnf, h01, h05, hwl, hi]
      · simp [-one_div, compCell, emitChar, injectWord, hsrc,
          shouldReplaceExistingText, shouldReplaceWord, hcl, hnf, h01, h05, hwl, hw,
          hk, filledBefore_succ]
        omega

/-- Indexing a rendered grid at a cell position. -/
theorem gridRender_cell_get (w h : ℕ) (cell : ℕ → Char) (y x : ℕ)
    (hy : y < h) (hx : x < w) :
    (gridRender w h cell)[y * (w + 1) + x]? = some (cell (y * w + x)) := by
  have hp : y * (w + 1) + x < h * (w + 1) := by
    calc y * (w + 1) + x < y * (w + 1) + (w + 1) := by omega
      _ = (y + 1) * (w + 1) := by ring
      _ ≤ h * (w + 1) := Nat.mul_le_mul_right _ hy
  unfold gridRender
  rw [List.getElem?_map, List.getElem?_range hp]
  simp [posChar_cell w cell y x hx]

/-- Indexing a rendered grid at a row's closing line break. -/
theorem gridRender_newline_get (w h : ℕ) (cell : ℕ → Char) (y : ℕ) (hy : y < h) :
    (gridRender w h cell)[y * (w + 1) + w]? = some '\n' := by
  have hp : y * (w + 1) + w < h * (w + 1) := by
    calc y * (w + 1) + w < y * (w + 1) + (w + 1) := by omega
      _ = (y + 1) * (w + 1) := by ring
      _ ≤ h * (w + 1) := Nat.mul_le_mul_right _ hy
  unfold gridRender
  rw [List.getElem?_map, List.getElem?_range hp]
  simp [posChar_newline]

/-- The length of a rendered grid. -/
theorem gridRender_length (w h : ℕ) (cell : ℕ → Char) :
    (gridRender w h cell).length = h * (w + 1) := by
  unfold gridRender
  rw [List.length_map, List.length_range]

/-- C5 amended: with no previous text, no configured words, a non-empty
palette and draws in `[0,1)`, the compositor succeeds and renders each
filled cell as a freshly drawn palette character (100% replacement) and
each empty cell as a space; every filled cell of the output holds a
character of the palette, each row has `width` cell characters followed
by a line break, and the output length is `height * (width + 1)`. -/
theorem first_frame_palette (data : ImageData) (letters : String) (rand : ℕ → ℚ)
    (hq : ∀ k, 0 ≤ rand k ∧ rand k < 1) (hl : letters.data ≠ [])
    (hd : 4 * (data.height * data.width) ≤ data.data.length) :
    ∃ out : String, getTextContentWithImageAtSize data none [] letters rand = .ok out ∧
      out.data = gridRender data.width data.height
        (firstFrameCell data.data letters rand) ∧
      out.length = data.height * (data.width + 1) ∧
      (∀ y x, y < data.height → x < data.width →
        isFilledAt data.data (y * data.width + x) = true →
        ∃ c ∈ letters.data, out.data[y * (data.width + 1) + x]? = some c) ∧
      (∀ y, y < data.height →
        out.data[y * (data.width + 1) + data.width]? = some '\n') := by
  obtain ⟨out, hok, hdata⟩ := getText_render data none [] letters rand
    (firstFrameCell data.data letters rand) (filledBefore data.data) rfl
    (fun j hj => pixelAt_isSome data.data j (by omega))
    (fun j px st hj hpx hi hk =>
      compCell_firstFrame data.data letters rand hq hl j px st hpx hi hk)
  refine ⟨out, hok, hdata, ?_, ?_, ?_⟩
  · show out.data.length = _
    rw [hdata, gridRender_length]
  · intro y x hy hx hfill
    obtain ⟨c, hc, hcm⟩ := randomChoice_mem letters.data
      (rand (filledBefore data.data (y * data.width + x))) (hq _).1 (hq _).2 hl
    refine ⟨c, hcm, ?_⟩
    rw [hdata, gridRender_cell_get data.width data.height _ y x hy hx]
    simp [firstFrameCell, hfill, hc]
  · intro y hy
    rw [hdata]
    exact gridRender_newline_get data.width data.height _ y hy

/-- Witness for `first_frame_palette`: the 3×1 all-filled grid with
palette `"01"`, no words and no previous text renders three palette
characters and a line break — a four-character output. -/
theorem first_frame_palette_witness :
    ∃ out : String, getTextContentWithImageAtSize
        ⟨3, 1, [0, 0, 0, 255, 0, 0, 0, 255, 0, 0, 0, 255]⟩ none [] "01" randZero
        = .ok out ∧
      out.length = 1 * (3 + 1) ∧
      (∀ x, x < 3 → ∃ c ∈ "01".data, out.data[0 * (3 + 1) + x]? = some c) ∧
      out.data[0 * (3 + 1) + 3]? = some '\n' := by
  obtain ⟨out, hok, _, hlen, hcellp, hnl⟩ :=
    first_frame_palette ⟨3, 1, [0, 0, 0, 255, 0, 0, 0, 255, 0, 0, 0, 255]⟩ "01" randZero
      (fun k => ⟨by norm_num [randZero], by norm_num [randZero]⟩) (by decide) (by decide)
  refine ⟨out, hok, hlen, ?_, hnl 0 (by decide)⟩
  intro x hx
  interval_cases x <;> exact hcellp 0 _ (by decide) (by decide) (by decide)

/-- C5 as stated is false once a word is configured: with palette `"01"`,
word list `["2"]`, a 1×1 filled grid, no previous text and the zero
stream, the word branch fires and the output is `"2\n"` — the filled cell
holds `'2'`, which is not a palette character, even though the draws lie
in `[0,1)`. -/
theorem first_frame_word_overwrites_palette :
    getTextContentWithImageAtSize ⟨1, 1, [0, 0, 0, 255]⟩ none ["2"] "01" randZero
      = .ok "2\n" ∧
    ('2' ∈ "01".data → False) ∧ (∀ k, 0 ≤ randZero k ∧ randZero k < 1) := by
  refine ⟨?_, by decide, fun k => ⟨by norm_num [randZero], by norm_num [randZero]⟩⟩
  have s1 : ∀ k, shouldReplaceWord randZero k = (true, k + 1) := by
    intro k
    simp only [shouldReplaceWord]
    norm_num [randZero]
  have r0 : randomChoice ("01".data) (randZero 0) = some '0' := by
    norm_num [randomChoice, randZero]
  have r1 : randomChoice ["2"] (randZero 2) = some "2" := by
    norm_num [randomChoice, randZero]
  simp +decide [getTextContentWithImageAtSize, compRows, compRow, compCell, emitChar,
    injectWord, hasSource, pixelAt, classifyFilled, stripLineBreaks, jsUndefined,
    shouldReplaceExistingText, s1, r0, r1, String.ext_iff]

/-- C6: with previous text whose stripped form covers every cell and a
random stream on which neither the 10% replacement nor the 5% word draw
ever fires, the compositor reproduces the previous frame's filled-cell
characters exactly, cell-for-cell at the same absolute cell index of the
line-break-stripped text; empty cells are spaces, each row is `width`
characters plus its line break, and the output length is
`height * (width + 1)`. -/
theorem reuse_frame_exact (data : ImageData) (prevText : String) (words : List String)
    (letters : String) (rand : ℕ → ℚ)
    (hq : ∀ k, 1/10 ≤ rand k)
    (hd : 4 * (data.height * data.width) ≤ data.data.length)
    (hcov : data.height * data.width ≤ (stripLineBreaks prevText).data.length) :
    ∃ out : String, getTextContentWithImageAtSize data (some prevText) words letters rand
        = .ok out ∧
      out.data = gridRender data.width data.height
        (reuseCell data.data (stripLineBreaks prevText).data) ∧
      out.length = data.height * (data.width + 1) ∧
      (∀ y x, y < data.height → x < data.width →
        isFilledAt data.data (y * data.width + x) = true →
        out.data[y * (data.width + 1) + x]?
          = (stripLineBreaks prevText).data[y * data.width + x]?) ∧
      (∀ y, y < data.height →
        out.data[y * (data.width + 1) + data.width]? = some '\n') := by
  obtain ⟨out, hok, hdata⟩ := getText_render data (some prevText) words letters rand
    (reuseCell data.data (stripLineBreaks prevText).data)
    (fun j => (if words = [] then 1 else 2) * filledBefore data.data j)
    (by simp [filledBefore_zero])
    (fun j hj => pixelAt_isSome data.data j (by omega))
    (fun j px st hj hpx hi hk =>
      compCell_reuse data.data letters words (stripLineBreaks prevText).data rand hq
        j px st hpx (by omega) hi hk)
  refine ⟨out, hok, hdata, ?_, ?_, ?_⟩
  · show out.data.length = _
    rw [hdata, gridRender_length]
  · intro y x hy hx hfill
    have hjlt : y * data.width + x < data.height * data.width := by
      calc y * data.width + x < y * data.width + data.width := by omega
        _ = (y + 1) * data.width := by ring
        _ ≤ data.height * data.width := Nat.mul_le_mul_right _ hy
    have hjlen : y * data.width + x < (stripLineBreaks prevText).data.length := by omega
    rw [hdata, gridRender_cell_get data.width data.height _ y x hy hx,
      List.getElem?_eq_getElem hjlen]
    simp only [reuseCell, hfill, if_true]
    rw [List.getD_eq_getElem?_getD, List.getElem?_eq_getElem hjlen]
    rfl
  · intro y hy
    rw [hdata]
    exact gridRender_newline_get data.width data.height _ y hy

/-- Witness for `reuse_frame_exact`: a 2×1 grid whose first cell is
filled and second is empty, previous text `"ab"` and the constant `1/2`
stream reproduce `'a'` at the filled cell. -/
theorem reuse_frame_exact_witness :
    ∃ out : String, getTextContentWithImageAtSize
        ⟨2, 1, [0, 0, 0, 255, 255, 0, 0, 255]⟩ (some "ab") [] "01" randHalf
        = .ok out ∧
      out.length = 1 * (2 + 1) ∧
      out.data[0 * (2 + 1) + 0]? = (stripLineBreaks "ab").data[0 * 2 + 0]? ∧
      out.data[0 * (2 + 1) + 2]? = some '\n' := by
  obtain ⟨out, hok, _, hlen, hcellp, hnl⟩ :=
    reuse_frame_exact ⟨2, 1, [0, 0, 0, 255, 255, 0, 0, 255]⟩ "ab" [] "01" randHalf
      (fun k => by norm_num [randHalf]) (by decide) (by decide)
  exact ⟨out, hok, hlen, hcellp 0 0 (by decide) (by decide) (by decide), hnl 0 (by decide)⟩

end Lettercrap
